import Mathlib

/-!
Verification of the Swiftbuy checkout-agent flow engine.

This file gives a shallow embedding, in Lean 4, of the persistence and
replay core of the repository (`backend/checkout-agent/flow_store.py` and
`backend/checkout-agent/checkout_agent.py`) and proves the testable
properties of its specification against that embedding.

Python dictionaries holding selector maps are modelled as association
lists (`Dict`); JSON records are modelled as the `Flow` structure whose
optional fields stand for keys that may be absent from the stored JSON
object; file-system effects are modelled by explicit state passing
(`Option Flow` is "the stored record, or no file").
-/

namespace Swiftbuy

/-- A Python `dict[str, str]` (selector map), as an association list in
insertion order.  Python dicts have unique keys; lookup is by key. -/
structure Dict where
  entries : List (String × String)
deriving DecidableEq

/-- Lookup `d[k]` / `d.get(k)`: value of the first entry with key `k`. -/
def Dict.get (d : Dict) (k : String) : Option String :=
  (d.entries.find? (fun p => p.1 == k)).map (fun p => p.2)

/-- The empty dict `{}`. -/
def Dict.empty : Dict := ⟨[]⟩

/-- Python `{**old, **new}`: keys of `old` first (values overridden by
`new` where present), then the keys of `new` not already in `old`. -/
def Dict.mergeRight (old new : Dict) : Dict :=
  ⟨old.entries.map (fun p => (p.1, (Dict.get new p.1).getD p.2))
    ++ new.entries.filter (fun p => (Dict.get old p.1).isNone)⟩

/-- A navigation step of a flow record (flow_store.py's step dicts).
`url_at` is `none` when the JSON object has no `url_at` key or holds
`null` there (navigate/wait/go_back steps never carry one). -/
structure Step where
  action : String
  purpose : String
  url_at : Option String
  text : String
deriving DecidableEq

/-- Everything after the first occurrence of `pat`, or `none` when
`pat` does not occur. -/
def afterMarker (pat : List Char) : List Char → Option (List Char)
  | [] => none
  | c :: rest =>
    if pat.isPrefixOf (c :: rest) then some ((c :: rest).drop pat.length)
    else afterMarker pat rest

/-- Models Python `urllib.parse.urlparse(url).hostname or ''` for the
URL shapes the store receives: the authority is what follows `"://"` up
to the first `/`, `?` or `#`; user-info up to the last `@` and a
`:port` suffix are dropped; the hostname is lower-cased; a URL with no
`"://"` has no netloc, hence hostname `''`. -/
def hostnameOf (url : String) : String :=
  let rest := (afterMarker ("://".toList) url.data).getD []
  let netloc := rest.takeWhile (fun c => c != '/' && c != '?' && c != '#')
  let afterUser := (netloc.reverse.takeWhile (fun c => c != '@')).reverse
  let host := afterUser.takeWhile (fun c => c != ':')
  ⟨host.map Char.toLower⟩

/-- flow_store.py `_domain_from_url`: hostname of the URL, with a
leading `www.` stripped. -/
def domain_from_url (url : String) : String :=
  let domain := hostnameOf url
  if ("www.".toList).isPrefixOf domain.data then ⟨domain.data.drop 4⟩ else domain

/-- The domain key every store operation computes:
`_domain_from_url(x) if '/' in x else x` (flow_store.py lines 62, 104,
154, 526). -/
def domainKey (domain_or_url : String) : String :=
  if domain_or_url.data.contains '/' then domain_from_url domain_or_url else domain_or_url

/-- The persisted flow record (flow_store.py's JSON schema).  Optional
fields model JSON keys that may be absent or `null`. -/
structure Flow where
  domain : String
  platform : String
  checkout_url_pattern : Option String
  navigation_steps : List Step
  form_selectors : Dict
  payment_selectors : Dict
  success_count : Nat
  failure_count : Nat
  consecutive_failures : Nat
  last_success : Option String
  last_failure : Option String
  last_error : Option String
  last_url : Option String
deriving DecidableEq

/-- The arguments of one `save_flow` call (plus `now`, the value
`datetime.now(timezone.utc).isoformat()` produces during that call).
`none` models a Python `None` argument. -/
structure SaveArgs where
  domain_or_url : String
  form_selectors : Dict
  payment_selectors : Option Dict
  navigation_steps : Option (List Step)
  checkout_url_pattern : Option String
  platform : Option String
  final_url : Option String
  now : String
deriving DecidableEq

/-- Python `a or b` for an optional string `a` and a plain-string
default `b`: `a` unless it is `None` or `''` (falsy). -/
def pyOrD (a : Option String) (b : String) : String :=
  match a with
  | some s => if s = "" then b else s
  | none => b

/-- Python `a or b` where both sides are optional strings. -/
def pyOrOpt (a b : Option String) : Option String :=
  match a with
  | some s => if s = "" then b else some s
  | none => b

/-- flow_store.py `save_flow` (lines 90-149), as a state transformer:
`st` is the existing record (`none` when the file is missing or
unreadable, in which case `existing = {}`), and the result is the record
written back.  Selector maps are merged (`{**existing, **new}`), the
navigation steps are replaced exactly when the argument `is not None`,
`success_count` is incremented, `failure_count` preserved,
`consecutive_failures` reset to 0, `last_success` stamped; the written
object carries no `last_failure`/`last_error` key. -/
def save_flow (st : Option Flow) (a : SaveArgs) : Flow :=
  { domain := domainKey a.domain_or_url
  , platform := pyOrD a.platform (match st with | some f => f.platform | none => "unknown")
  , checkout_url_pattern := pyOrOpt a.checkout_url_pattern (st.bind (fun f => f.checkout_url_pattern))
  , navigation_steps :=
      match a.navigation_steps with
      | some l => l
      | none => match st with | some f => f.navigation_steps | none => []
  , form_selectors :=
      Dict.mergeRight (match st with | some f => f.form_selectors | none => Dict.empty)
        a.form_selectors
  , payment_selectors :=
      Dict.mergeRight (match st with | some f => f.payment_selectors | none => Dict.empty)
        (a.payment_selectors.getD Dict.empty)
  , success_count := (match st with | some f => f.success_count | none => 0) + 1
  , failure_count := match st with | some f => f.failure_count | none => 0
  , consecutive_failures := 0
  , last_success := some a.now
  , last_failure := none
  , last_error := none
  , last_url := pyOrOpt a.final_url (st.bind (fun f => f.last_url)) }

/-- Python `s[:n]`: the first `n` characters of `s`. -/
def pyTruncate (s : String) (n : Nat) : String :=
  ⟨s.data.take n⟩

/-- The record update performed by `record_failure` on an existing
record (flow_store.py lines 536-540): increment `failure_count` and
`consecutive_failures`, stamp `last_failure`, and set `last_error` to
the error truncated to 200 characters when the error is truthy. -/
def failUpdate (flow : Flow) (error : Option String) (now : String) : Flow :=
  { flow with
      failure_count := flow.failure_count + 1
    , consecutive_failures := flow.consecutive_failures + 1
    , last_failure := some now
    , last_error :=
        match error with
        | some e => if e = "" then flow.last_error else some (pyTruncate e 200)
        | none => flow.last_error }

/-- flow_store.py `record_failure` (lines 524-547) as a state
transformer: a no-op when no record exists (`if not os.path.exists(path):
return`), otherwise `failUpdate`. -/
def record_failure (st : Option Flow) (error : Option String) (now : String) : Option Flow :=
  match st with
  | none => none
  | some flow => some (failUpdate flow error now)

/-- One store operation on a domain: a successful `save_flow` call or a
`record_failure` call. -/
inductive Op where
  | saveOp (a : SaveArgs)
  | failOp (error : Option String) (now : String)
deriving DecidableEq

/-- The state transition of one operation on the stored record. -/
def applyOp (st : Option Flow) : Op → Option Flow
  | .saveOp a => some (save_flow st a)
  | .failOp error now => record_failure st error now

/-- Run a sequence of store operations starting from no record. -/
def runOps (ops : List Op) : Option Flow :=
  ops.foldl applyOp none

def Op.isSave : Op → Bool
  | .saveOp _ => true
  | .failOp _ _ => false

def Op.isFail : Op → Bool
  | .saveOp _ => false
  | .failOp _ _ => true

-- ═══════════════════════════════════════════════════════════════════
-- Health monitor (flow_store.py `check_flow_health`)
-- ═══════════════════════════════════════════════════════════════════

/-- Round-half-to-even on rationals, the rounding Python's `round`
applies to an exactly representable value. -/
def roundHalfEven (q : Rat) : Int :=
  let f := q.floor
  let r := q - f
  if r < 1/2 then f
  else if 1/2 < r then f + 1
  else if f % 2 = 0 then f else f + 1

/-- Python `round(q, 1)`. -/
def pyRound1 (q : Rat) : Rat :=
  (roundHalfEven (q * 10) : Rat) / 10

/-- The timestamp recency test of `check_flow_health` (lines 496-503):
both timestamps truthy (present and non-empty) and the last failure
lexicographically after the last success. -/
def staleCondition (flow : Flow) : Bool :=
  match flow.last_failure, flow.last_success with
  | some lf, some ls => decide (lf ≠ "" ∧ ls ≠ "" ∧ ls < lf)
  | _, _ => false

/-- The dict returned by `check_flow_health`. -/
structure Health where
  status : String
  nav_steps : Nat
  form_selectors : Nat
  payment_selectors : Nat
  success_count : Nat
  failure_count : Nat
  success_rate : Rat
  needs_relearn : Bool
  consecutive_failures : Nat
deriving DecidableEq

/-- flow_store.py `check_flow_health` (lines 467-521).  The success
rate is `success_count / total_runs * 100` (0 when `total_runs = 0`),
reported rounded to one decimal; the status ladder is evaluated on the
unrounded rate; `consecutive_failures ≥ 2` forces both
`needs_relearn = true` and `status = "needs_relearn"` last. -/
def check_flow_health (flow : Flow) : Health :=
  let nav_count := flow.navigation_steps.length
  let form_count := flow.form_selectors.entries.length
  let pay_count := flow.payment_selectors.entries.length
  let success_count := flow.success_count
  let failure_count := flow.failure_count
  let total_runs := success_count + failure_count
  let success_rate : Rat :=
    if 0 < total_runs then (success_count : Rat) / (total_runs : Rat) * 100 else 0
  let status0 := "healthy"
  let status1 := if 3 ≤ total_runs ∧ success_rate < 50 then "degraded" else status0
  let status2 := if 3 ≤ total_runs ∧ success_rate < 20 then "broken" else status1
  let status3 := if 3 ≤ failure_count ∧ success_count = 0 then "broken" else status2
  let needs0 := staleCondition flow
  let consecutive_failures := flow.consecutive_failures
  let needs1 := if 2 ≤ consecutive_failures then true else needs0
  let status4 := if 2 ≤ consecutive_failures then "needs_relearn" else status3
  { status := status4
  , nav_steps := nav_count
  , form_selectors := form_count
  , payment_selectors := pay_count
  , success_count := success_count
  , failure_count := failure_count
  , success_rate := pyRound1 success_rate
  , needs_relearn := needs1
  , consecutive_failures := consecutive_failures }

-- ═══════════════════════════════════════════════════════════════════
-- Loading (flow_store.py `load_flow`)
-- ═══════════════════════════════════════════════════════════════════

/-- What the file system and the JSON parser can yield for a domain's
flow file when `load_flow` runs. -/
inductive FileState where
  /-- No file: `os.path.exists(path)` is false. -/
  | missing
  /-- Opening or reading raises an `IOError` (`OSError`). -/
  | ioError
  /-- The bytes are not decodable text: `json.load` raises
  `UnicodeDecodeError`. -/
  | undecodableBytes
  /-- The text is not valid JSON: `json.load` raises
  `json.JSONDecodeError`. -/
  | invalidJson
  /-- The text is valid JSON but not an object (e.g. `[]`). -/
  | jsonNonObject
  /-- The text is a JSON object, parsed as a flow record. -/
  | jsonObject (flow : Flow)
deriving DecidableEq

/-- flow_store.py `load_flow` (lines 60-87) over the file state.
A missing file returns `None`; the `try`/`except` catches exactly
`json.JSONDecodeError` and `IOError`, so those two outcomes also return
`None`; `UnicodeDecodeError` (a `ValueError` sibling of
`JSONDecodeError`, raised while decoding the file's bytes) escapes; and
on valid JSON that is not an object, `flow.get('navigation_steps', [])`
raises an uncaught `AttributeError`. -/
def load_flow : FileState → Except String (Option Flow)
  | .missing => .ok none
  | .ioError => .ok none
  | .undecodableBytes => .error "UnicodeDecodeError"
  | .invalidJson => .ok none
  | .jsonNonObject => .error "AttributeError"
  | .jsonObject flow => .ok (some flow)

-- ═══════════════════════════════════════════════════════════════════
-- Replay boundary (checkout_agent.py `_filter_pre_form_steps`)
-- ═══════════════════════════════════════════════════════════════════

/-- Whether Python's `re.search(r'/checkout/.+', s)` finds a match in
`s`: some occurrence of `"/checkout/"` is immediately followed by at
least one character, the first of which is not a newline. -/
def searchCheckoutSub : List Char → Bool
  | [] => false
  | c :: rest =>
    (("/checkout/".toList).isPrefixOf (c :: rest)
        && match (c :: rest).drop ("/checkout/".toList).length with
           | [] => false
           | d :: _ => d != '\n')
      || searchCheckoutSub rest

/-- Python `re.search(r'/checkout/.+', url_at)` as a predicate on
strings. -/
def reSearchCheckoutSub (s : String) : Bool :=
  searchCheckoutSub s.data

/-- The value `step.get('url_at', '') or ''` reads: the stored string,
with a missing key or `null` mapped to `''` (as `''` maps to itself). -/
def urlAtEff (s : Step) : String :=
  s.url_at.getD ""

/-- The stop condition of `_filter_pre_form_steps`: a `click` whose
purpose is `continue` or `confirm` on a URL matching `/checkout/.+`. -/
def isStopStep (step : Step) : Bool :=
  step.action == "click"
    && (step.purpose == "continue" || step.purpose == "confirm")
    && reSearchCheckoutSub (urlAtEff step)

/-- checkout_agent.py `_filter_pre_form_steps` (lines 1033-1060): walk
the steps in order, skipping `wait` steps; stop (excluding the stopping
step and the rest) at the first `click` whose purpose is `continue` or
`confirm` and whose `url_at` matches `/checkout/.+`. -/
def filter_pre_form_steps : List Step → List Step
  | [] => []
  | step :: rest =>
    if step.action == "wait" then filter_pre_form_steps rest
    else if isStopStep step then []
    else step :: filter_pre_form_steps rest

-- ═══════════════════════════════════════════════════════════════════
-- Fill verification (checkout_agent.py FORM_FILL_JS `verifyField`)
-- ═══════════════════════════════════════════════════════════════════

/-- The characters JavaScript's `\s` matches (ASCII range), which is
also the set `trim` strips from both ends. -/
def jsWhitespace (c : Char) : Bool :=
  c == ' ' || c == '\t' || c == '\n' || c == '\r' || c == '\x0b' || c == '\x0c'

/-- JavaScript `String.prototype.trim`. -/
def jsTrim (s : String) : String :=
  ⟨(((s.data.dropWhile jsWhitespace).reverse.dropWhile jsWhitespace).reverse)⟩

/-- JavaScript `value.replace(/[\s\-\(\)]/g, '')`: remove every
whitespace, hyphen and parenthesis character. -/
def stripPunct (s : String) : String :=
  ⟨s.data.filter (fun c => !(jsWhitespace c || c == '-' || c == '(' || c == ')'))⟩

/-- checkout_agent.py FORM_FILL_JS `verifyField` (lines 171-180): trim
the read-back value and the expected value; an empty expected value
verifies trivially; otherwise accept on exact equality of the trimmed
strings or on equality after stripping whitespace/hyphens/parentheses.
-/
def verifyField (elValue expectedValue : String) : Bool :=
  let actual := jsTrim elValue
  let expected := jsTrim expectedValue
  if expected = "" then true
  else if actual = expected then true
  else if stripPunct actual = stripPunct expected then true
  else false

-- ═══════════════════════════════════════════════════════════════════
-- Specification-side definitions (worded from the spec, for the
-- claims that compare the code against them)
-- ═══════════════════════════════════════════════════════════════════

/-- Left-biased choice on options (Python `a if a is not None else b`),
used to phrase "the later call's key wins". -/
def oalt {α : Type} (a b : Option α) : Option α :=
  match a with
  | some v => some v
  | none => b

/-- Modelled from the spec: "the union of all supplied maps with keys
from later calls overriding earlier ones" — the lookup of key `k` in
that union, over the supplied maps in call order. -/
def specUnionLookup (ds : List Dict) (k : String) : Option String :=
  ds.foldl (fun acc d => oalt (d.get k) acc) none

/-- Run one `save_flow` call followed by a further sequence of calls,
starting from no record (a non-empty sequence of saves). -/
def runSaves1 (a0 : SaveArgs) (rest : List SaveArgs) : Flow :=
  rest.foldl (fun f a => save_flow (some f) a) (save_flow none a0)

/-- Number of `save` calls in an operation sequence. -/
def countSaves (ops : List Op) : Nat :=
  ops.countP (fun o => o.isSave)

/-- Number of `recordFailure` calls in an operation sequence. -/
def countFails (ops : List Op) : Nat :=
  ops.countP (fun o => o.isFail)

/-- Number of `recordFailure` calls at or after the first `save` call
(the ones that find an existing record). -/
def failsAfterFirstSave (ops : List Op) : Nat :=
  (ops.dropWhile (fun o => !o.isSave)).countP (fun o => o.isFail)

/-- Modelled from the spec: "the length of the trailing run of failures
at the end of the sequence". -/
def trailingFailures (ops : List Op) : Nat :=
  (ops.reverse.takeWhile (fun o => o.isFail)).length

/-- Left-recursive form of `trailingFailures`, convenient for
induction. -/
def trailingFailuresL : List Op → Nat
  | [] => 0
  | op :: rest =>
    if op.isFail && rest.all (fun o => o.isFail) then rest.length + 1
    else trailingFailuresL rest

/-- Total application of one operation to an existing record. -/
def applyOpF (fl : Flow) : Op → Flow
  | .saveOp a => save_flow (some fl) a
  | .failOp error now => failUpdate fl error now

-- ═══════════════════════════════════════════════════════════════════
-- Dictionary-lookup lemmas
-- ═══════════════════════════════════════════════════════════════════

/-- Association-list lookup underlying `Dict.get`. -/
def lk (es : List (String × String)) (k : String) : Option String :=
  (es.find? (fun p => p.1 == k)).map (fun p => p.2)

theorem lk_cons (p : String × String) (es : List (String × String)) (k : String) :
    lk (p :: es) k = if p.1 == k then some p.2 else lk es k := by
  cases h : p.1 == k <;> simp [lk, List.find?_cons, h]

theorem lk_append (xs ys : List (String × String)) (k : String) :
    lk (xs ++ ys) k = oalt (lk xs k) (lk ys k) := by
  induction xs with
  | nil => rfl
  | cons p xs ih =>
    rw [List.cons_append, lk_cons, lk_cons]
    cases h : p.1 == k
    · simp [h, ih]
    · simp [h, oalt]

theorem lk_mapVals (g : String × String → String) (es : List (String × String)) (k : String) :
    lk (es.map (fun p => (p.1, g p))) k
      = (es.find? (fun p => p.1 == k)).map (fun p => g p) := by
  induction es with
  | nil => rfl
  | cons p es ih =>
    rw [List.map_cons, lk_cons]
    cases h : p.1 == k <;> simp [List.find?_cons, h, ih]

theorem lk_filter_of_key (pred : String × String → Bool) (k : String)
    (h : ∀ q : String × String, q.1 = k → pred q = true) :
    ∀ es : List (String × String), lk (es.filter pred) k = lk es k := by
  intro es
  induction es with
  | nil => rfl
  | cons q es ih =>
    by_cases hqk : q.1 = k
    · have hp : pred q = true := h q hqk
      rw [List.filter_cons, if_pos hp]
      simp [lk_cons, hqk]
    · have hbq : (q.1 == k) = false := by simpa using hqk
      cases hp : pred q
      · rw [List.filter_cons, if_neg (by simp [hp]), ih, lk_cons, hbq]
        simp
      · rw [List.filter_cons, if_pos hp]
        simp [lk_cons, hbq, ih]

theorem Dict.get_mergeRight (old new : Dict) (k : String) :
    (Dict.mergeRight old new).get k = oalt (new.get k) (old.get k) := by
  show lk (old.entries.map (fun p => (p.1, (Dict.get new p.1).getD p.2))
        ++ new.entries.filter (fun p => (Dict.get old p.1).isNone)) k
      = oalt (lk new.entries k) (lk old.entries k)
  rw [lk_append, lk_mapVals]
  cases hf : old.entries.find? (fun p => p.1 == k) with
  | some q =>
    have hq : q.1 = k := by
      have := List.find?_some hf
      simpa using this
    have hold : lk old.entries k = some q.2 := by
      simp [lk, hf]
    rw [hold]
    cases hn : lk new.entries k with
    | some v =>
      have hnew : Dict.get new q.1 = some v := by rw [hq]; exact hn
      simp [oalt, hnew]
    | none =>
      have hnew : Dict.get new q.1 = none := by rw [hq]; exact hn
      simp [oalt, hnew]
  | none =>
    have hold : lk old.entries k = none := by simp [lk, hf]
    rw [hold]
    have hfilter : lk (new.entries.filter (fun p => (Dict.get old p.1).isNone)) k
        = lk new.entries k := by
      apply lk_filter_of_key
      intro q hqk
      have : Dict.get old q.1 = none := by
        show lk old.entries q.1 = none
        rw [hqk]; exact hold
      simp [this]
    rw [hfilter]
    cases lk new.entries k <;> simp [oalt]

-- ═══════════════════════════════════════════════════════════════════
-- C1: save() merge invariant
-- ═══════════════════════════════════════════════════════════════════

theorem foldSave_form (l : List SaveArgs) (k : String) :
    ∀ fl : Flow,
      (l.foldl (fun f a => save_flow (some f) a) fl).form_selectors.get k
        = l.foldl (fun acc a => oalt (a.form_selectors.get k) acc) (fl.form_selectors.get k) := by
  induction l with
  | nil => intro fl; rfl
  | cons a l ih =>
    intro fl
    rw [List.foldl_cons, List.foldl_cons, ih]
    have : (save_flow (some fl) a).form_selectors.get k
        = oalt (a.form_selectors.get k) (fl.form_selectors.get k) :=
      Dict.get_mergeRight fl.form_selectors a.form_selectors k
    rw [this]

theorem foldSave_payment (l : List SaveArgs) (k : String) :
    ∀ fl : Flow,
      (l.foldl (fun f a => save_flow (some f) a) fl).payment_selectors.get k
        = l.foldl (fun acc a => oalt ((a.payment_selectors.getD Dict.empty).get k) acc)
            (fl.payment_selectors.get k) := by
  induction l with
  | nil => intro fl; rfl
  | cons a l ih =>
    intro fl
    rw [List.foldl_cons, List.foldl_cons, ih]
    have : (save_flow (some fl) a).payment_selectors.get k
        = oalt ((a.payment_selectors.getD Dict.empty).get k) (fl.payment_selectors.get k) :=
      Dict.get_mergeRight fl.payment_selectors (a.payment_selectors.getD Dict.empty) k
    rw [this]

theorem findSome_append {α β : Type} (f : α → Option β) (xs ys : List α) :
    (xs ++ ys).findSome? f = oalt (xs.findSome? f) (ys.findSome? f) := by
  induction xs with
  | nil => rfl
  | cons x xs ih =>
    rw [List.cons_append, List.findSome?_cons, List.findSome?_cons]
    cases f x <;> simp [oalt, ih]

theorem foldSave_nav (l : List SaveArgs) :
    ∀ fl : Flow,
      (l.foldl (fun f a => save_flow (some f) a) fl).navigation_steps
        = (l.reverse.findSome? (fun a => a.navigation_steps)).getD fl.navigation_steps := by
  induction l with
  | nil => intro fl; rfl
  | cons a l ih =>
    intro fl
    rw [List.foldl_cons, ih, List.reverse_cons, findSome_append]
    cases hl : l.reverse.findSome? (fun a => a.navigation_steps) with
    | some s => simp [oalt]
    | none =>
      simp only [oalt, List.findSome?_cons, List.findSome?_nil]
      cases hna : a.navigation_steps <;> simp [save_flow, hna]

/-- C1.  For every non-empty sequence of `save()` calls to the same
domain, the resulting `form_selectors` and `payment_selectors` maps
look up, at every key, exactly the union of the supplied maps with
later calls' keys overriding earlier ones (keys absent from a later
call survive), and `navigation_steps` is the sequence supplied by the
most recent call whose `navigation_steps` argument was non-null (a
`None` argument leaves the existing steps unchanged; with no non-null
supplier the steps are empty). -/
theorem save_merge_invariant (a0 : SaveArgs) (rest : List SaveArgs) :
    (∀ k, (runSaves1 a0 rest).form_selectors.get k
        = specUnionLookup ((a0 :: rest).map (fun a => a.form_selectors)) k)
    ∧ (∀ k, (runSaves1 a0 rest).payment_selectors.get k
        = specUnionLookup ((a0 :: rest).map (fun a => a.payment_selectors.getD Dict.empty)) k)
    ∧ (runSaves1 a0 rest).navigation_steps
        = ((a0 :: rest).reverse.findSome? (fun a => a.navigation_steps)).getD [] := by
  refine ⟨?_, ?_, ?_⟩
  · intro k
    rw [runSaves1, foldSave_form]
    rw [specUnionLookup, List.foldl_map, List.foldl_cons]
    have h0 : (save_flow none a0).form_selectors.get k
        = oalt (a0.form_selectors.get k) none := by
      have := Dict.get_mergeRight Dict.empty a0.form_selectors k
      simpa [Dict.get, Dict.empty] using this
    rw [h0]
  · intro k
    rw [runSaves1, foldSave_payment]
    rw [specUnionLookup, List.foldl_map, List.foldl_cons]
    have h0 : (save_flow none a0).payment_selectors.get k
        = oalt ((a0.payment_selectors.getD Dict.empty).get k) none := by
      have := Dict.get_mergeRight Dict.empty (a0.payment_selectors.getD Dict.empty) k
      simpa [Dict.get, Dict.empty] using this
    rw [h0]
  · rw [runSaves1, foldSave_nav, List.reverse_cons, findSome_append]
    cases hl : rest.reverse.findSome? (fun a => a.navigation_steps) with
    | some s => simp [oalt]
    | none =>
      simp only [oalt, List.findSome?_cons, List.findSome?_nil]
      cases hna : a0.navigation_steps <;> simp [save_flow, hna]

-- ═══════════════════════════════════════════════════════════════════
-- C4: interleaved save/recordFailure counters
-- ═══════════════════════════════════════════════════════════════════

theorem runFrom_some (ops : List Op) :
    ∀ fl : Flow, ops.foldl applyOp (some fl) = some (ops.foldl applyOpF fl) := by
  induction ops with
  | nil => intro fl; rfl
  | cons op ops ih =>
    intro fl
    have h : applyOp (some fl) op = some (applyOpF fl op) := by
      cases op <;> rfl
    rw [List.foldl_cons, List.foldl_cons, h, ih]

theorem trailingL_of_all (ops : List Op)
    (h : ops.all (fun o => o.isFail) = true) : trailingFailuresL ops = ops.length := by
  induction ops with
  | nil => rfl
  | cons op rest ih =>
    rw [List.all_cons, Bool.and_eq_true] at h
    rw [trailingFailuresL, if_pos (by simp [h.1, h.2])]
    simp

theorem takeWhile_append_all {α : Type} (p : α → Bool) (xs ys : List α) :
    (xs ++ ys).takeWhile p
      = if xs.all p then xs ++ ys.takeWhile p else xs.takeWhile p := by
  induction xs with
  | nil => simp
  | cons x xs ih =>
    rw [List.cons_append, List.takeWhile_cons, List.takeWhile_cons, List.all_cons]
    cases hx : p x
    · simp
    · simp only [Bool.true_and]
      rw [ih]
      cases hall : xs.all p <;> simp

theorem takeWhile_fail_of_all (l : List Op) (h : ∀ o ∈ l, o.isFail = true) :
    l.takeWhile (fun o => o.isFail) = l := by
  induction l with
  | nil => rfl
  | cons o l ih =>
    rw [List.takeWhile_cons, h o (by simp)]
    simp only [if_true]
    rw [ih (fun o ho => h o (by simp [ho]))]

theorem trailingL_cons_save (a : SaveArgs) (rest : List Op) :
    trailingFailuresL (Op.saveOp a :: rest) = trailingFailuresL rest := by
  simp [trailingFailuresL, Op.isFail]

theorem trailingL_cons_fail_all (e : Option String) (t : String) (rest : List Op)
    (h : rest.all (fun o => o.isFail) = true) :
    trailingFailuresL (Op.failOp e t :: rest) = rest.length + 1 := by
  have hcond : ((Op.failOp e t).isFail && rest.all (fun o => o.isFail)) = true := by
    rw [show (Op.failOp e t).isFail = true from rfl, Bool.true_and, h]
  simp only [trailingFailuresL]
  rw [if_pos hcond]

theorem trailingL_cons_fail_not_all (e : Option String) (t : String) (rest : List Op)
    (h : rest.all (fun o => o.isFail) = false) :
    trailingFailuresL (Op.failOp e t :: rest) = trailingFailuresL rest := by
  have hcond : ((Op.failOp e t).isFail && rest.all (fun o => o.isFail)) = false := by
    rw [show (Op.failOp e t).isFail = true from rfl, Bool.true_and, h]
  simp only [trailingFailuresL]
  rw [if_neg (by simp [hcond])]

theorem trailingL_eq (ops : List Op) : trailingFailuresL ops = trailingFailures ops := by
  induction ops with
  | nil => rfl
  | cons op rest ih =>
    have hrev : rest.reverse.all (fun o => o.isFail) = rest.all (fun o => o.isFail) := by
      simp [List.all_eq_true]
    rw [trailingFailures, List.reverse_cons, takeWhile_append_all, hrev]
    cases hall : rest.all (fun o => o.isFail)
    · simp only [Bool.false_eq_true, if_false]
      cases op with
      | saveOp a => rw [trailingL_cons_save, ih, trailingFailures]
      | failOp e t => rw [trailingL_cons_fail_not_all e t rest hall, ih, trailingFailures]
    · simp only [if_true]
      have htw : rest.reverse.takeWhile (fun o => o.isFail) = rest.reverse :=
        takeWhile_fail_of_all rest.reverse (by simpa [List.all_eq_true] using hall)
      cases op with
      | saveOp a =>
        rw [trailingL_cons_save, trailingL_of_all rest hall]
        simp [List.takeWhile_cons, Op.isFail, htw]
      | failOp e t =>
        rw [trailingL_cons_fail_all e t rest hall]
        simp [List.takeWhile_cons, Op.isFail, htw]

theorem foldF_success (ops : List Op) :
    ∀ fl : Flow, (ops.foldl applyOpF fl).success_count = fl.success_count + countSaves ops := by
  induction ops with
  | nil => intro fl; simp [countSaves]
  | cons op ops ih =>
    intro fl
    rw [List.foldl_cons, ih]
    cases op with
    | saveOp a =>
      have : (applyOpF fl (Op.saveOp a)).success_count = fl.success_count + 1 := rfl
      rw [this]
      simp [countSaves, List.countP_cons, Op.isSave]
      omega
    | failOp e t =>
      have : (applyOpF fl (Op.failOp e t)).success_count = fl.success_count := rfl
      rw [this]
      simp [countSaves, List.countP_cons, Op.isSave]

theorem foldF_failure (ops : List Op) :
    ∀ fl : Flow, (ops.foldl applyOpF fl).failure_count = fl.failure_count + countFails ops := by
  induction ops with
  | nil => intro fl; simp [countFails]
  | cons op ops ih =>
    intro fl
    rw [List.foldl_cons, ih]
    cases op with
    | saveOp a =>
      have : (applyOpF fl (Op.saveOp a)).failure_count = fl.failure_count := rfl
      rw [this]
      simp [countFails, List.countP_cons, Op.isFail]
    | failOp e t =>
      have : (applyOpF fl (Op.failOp e t)).failure_count = fl.failure_count + 1 := rfl
      rw [this]
      simp [countFails, List.countP_cons, Op.isFail]
      omega

theorem foldF_consecutive (ops : List Op) :
    ∀ fl : Flow, (ops.foldl applyOpF fl).consecutive_failures
      = if ops.all (fun o => o.isFail) = true then fl.consecutive_failures + ops.length
        else trailingFailuresL ops := by
  induction ops with
  | nil => intro fl; simp
  | cons op ops ih =>
    intro fl
    rw [List.foldl_cons, ih]
    cases op with
    | saveOp a =>
      have hc : (applyOpF fl (Op.saveOp a)).consecutive_failures = 0 := rfl
      rw [hc]
      have hall' : ((Op.saveOp a :: ops).all (fun o => o.isFail)) = false := by
        simp [List.all_cons, Op.isFail]
      rw [hall', trailingL_cons_save]
      simp only [Bool.false_eq_true, if_false]
      cases hall : ops.all (fun o => o.isFail)
      · simp only [Bool.false_eq_true, if_false]
      · simp only [if_true]
        rw [trailingL_of_all ops hall]
        simp
    | failOp e t =>
      have hc : (applyOpF fl (Op.failOp e t)).consecutive_failures
          = fl.consecutive_failures + 1 := rfl
      rw [hc]
      have hall' : ((Op.failOp e t :: ops).all (fun o => o.isFail))
          = ops.all (fun o => o.isFail) := by
        simp [List.all_cons, Op.isFail]
      rw [hall']
      cases hall : ops.all (fun o => o.isFail)
      · simp only [Bool.false_eq_true, if_false]
        rw [trailingL_cons_fail_not_all e t ops hall]
      · simp only [if_true]
        simp only [List.length_cons]
        omega

/-- C4 counterexample operations: one `recordFailure` call before any
`save` call.  Per the claim, the resulting record should carry
`failure_count = 1`; the code drops the failure (no record exists yet),
so the count is 0. -/
def c4CexOps : List Op :=
  [Op.failOp (some "timeout") "2026-02-17T10:00:00Z",
   Op.saveOp { domain_or_url := "shop.example"
             , form_selectors := ⟨[("email", "#email")]⟩
             , payment_selectors := none
             , navigation_steps := none
             , checkout_url_pattern := none
             , platform := none
             , final_url := none
             , now := "2026-02-17T11:00:00Z" }]

/-- C4, counterexample.  For the interleaving `[recordFailure, save]`
(s = 1, f = 1), the resulting record's `failure_count` is 0, not the
claimed `f = 1`: a `recordFailure` before the first `save` is a no-op
because no record exists yet. -/
theorem counter_invariant_cex :
    countFails c4CexOps = 1
    ∧ (runOps c4CexOps).map (fun fl => fl.failure_count) = some 0
    ∧ (runOps c4CexOps).map (fun fl => fl.failure_count) ≠ some (countFails c4CexOps) := by
  refine ⟨by decide, by decide, by decide⟩

/-- C4, amended.  For every interleaving of `save` and `recordFailure`
calls containing at least one `save`, starting from no record: the
resulting record exists, its `success_count` is the number of saves,
its `failure_count` counts only the `recordFailure` calls at or after
the first save (earlier ones are no-ops on a missing record), and its
`consecutive_failures` is the length of the trailing run of failures at
the end of the sequence. -/
theorem counter_invariant_amended (ops : List Op) (h : 1 ≤ countSaves ops) :
    ∃ fl, runOps ops = some fl
      ∧ fl.success_count = countSaves ops
      ∧ fl.failure_count = failsAfterFirstSave ops
      ∧ fl.consecutive_failures = trailingFailures ops := by
  induction ops with
  | nil => simp [countSaves] at h
  | cons op ops ih =>
    cases op with
    | failOp e t =>
      have h' : 1 ≤ countSaves ops := by
        simpa [countSaves, List.countP_cons, Op.isSave] using h
      obtain ⟨fl, hrun, hs, hf, hc⟩ := ih h'
      have hallf : ops.all (fun o => o.isFail) = false := by
        cases hall : ops.all (fun o => o.isFail)
        · rfl
        · exfalso
          have : countSaves ops = 0 := by
            rw [countSaves, List.countP_eq_zero]
            intro o ho
            have := (List.all_eq_true.mp hall) o ho
            cases o with
            | saveOp a => simp [Op.isFail] at this
            | failOp e' t' => simp [Op.isSave]
          omega
      refine ⟨fl, ?_, ?_, ?_, ?_⟩
      · have : runOps (Op.failOp e t :: ops) = runOps ops := rfl
        rw [this, hrun]
      · rw [hs]
        simp [countSaves, List.countP_cons, Op.isSave]
      · rw [hf]
        rfl
      · have htr : trailingFailures (Op.failOp e t :: ops) = trailingFailures ops := by
          rw [← trailingL_eq, trailingL_cons_fail_not_all e t ops hallf, trailingL_eq]
        rw [htr, hc]
    | saveOp a =>
      have hrun : runOps (Op.saveOp a :: ops)
          = some (ops.foldl applyOpF (save_flow none a)) := by
        rw [runOps, List.foldl_cons]
        exact runFrom_some ops (save_flow none a)
      refine ⟨ops.foldl applyOpF (save_flow none a), hrun, ?_, ?_, ?_⟩
      · rw [foldF_success]
        have : (save_flow none a).success_count = 1 := rfl
        rw [this]
        simp [countSaves, List.countP_cons, Op.isSave]
        omega
      · rw [foldF_failure]
        have : (save_flow none a).failure_count = 0 := rfl
        rw [this]
        have hdrop : failsAfterFirstSave (Op.saveOp a :: ops)
            = (Op.saveOp a :: ops).countP (fun o => o.isFail) := by
          rw [failsAfterFirstSave, List.dropWhile_cons]
          simp [Op.isSave]
        rw [hdrop]
        simp [countFails, List.countP_cons, Op.isFail]
      · rw [foldF_consecutive]
        have h0 : (save_flow none a).consecutive_failures = 0 := rfl
        rw [h0]
        have htr : trailingFailures (Op.saveOp a :: ops) = trailingFailuresL ops := by
          rw [← trailingL_eq, trailingL_cons_save]
        rw [htr]
        cases hall : ops.all (fun o => o.isFail)
        · simp only [Bool.false_eq_true, if_false]
        · simp only [if_true]
          rw [trailingL_of_all ops hall]
          simp

/-- C4 witness operations: a save, then two failures, then a save, then
one failure. -/
def c4WitnessOps : List Op :=
  [Op.saveOp { domain_or_url := "shop.example"
             , form_selectors := ⟨[("email", "#email")]⟩
             , payment_selectors := none
             , navigation_steps := none
             , checkout_url_pattern := none
             , platform := none
             , final_url := none
             , now := "2026-02-17T11:00:00Z" },
   Op.failOp (some "selector missing") "2026-02-17T12:00:00Z",
   Op.failOp none "2026-02-17T13:00:00Z",
   Op.saveOp { domain_or_url := "shop.example"
             , form_selectors := ⟨[("zip_code", "#zip")]⟩
             , payment_selectors := some ⟨[("card_number", "#cc")]⟩
             , navigation_steps := some []
             , checkout_url_pattern := none
             , platform := none
             , final_url := none
             , now := "2026-02-17T14:00:00Z" },
   Op.failOp (some "declined") "2026-02-17T15:00:00Z"]

/-- Witness for `counter_invariant_amended` at a concrete interleaving
with s = 2 saves and a trailing run of one failure. -/
theorem counter_invariant_amended_witness :
    ∃ fl, runOps c4WitnessOps = some fl
      ∧ fl.success_count = countSaves c4WitnessOps
      ∧ fl.failure_count = failsAfterFirstSave c4WitnessOps
      ∧ fl.consecutive_failures = trailingFailures c4WitnessOps :=
  counter_invariant_amended c4WitnessOps (by decide)

-- ═══════════════════════════════════════════════════════════════════
-- C2, C3: health monitor
-- ═══════════════════════════════════════════════════════════════════

/-- A record with 1 success, 4 failures, no consecutive-failure streak
and no failure after the last success. -/
def c2Flow : Flow :=
  { domain := "shop.example"
  , platform := "unknown"
  , checkout_url_pattern := none
  , navigation_steps := []
  , form_selectors := ⟨[]⟩
  , payment_selectors := ⟨[]⟩
  , success_count := 1
  , failure_count := 4
  , consecutive_failures := 0
  , last_success := some "2026-02-17T12:00:00Z"
  , last_failure := none
  , last_error := none
  , last_url := none }

/-- Python `round(20.0, 1) = 20.0`. -/
theorem pyRound1_twenty : pyRound1 20 = 20 := by
  unfold pyRound1 roundHalfEven
  have h1 : ((20:Rat) * 10) = 200 := by norm_num
  rw [h1]
  have hfl : Rat.floor (200:Rat) = 200 := rfl
  rw [hfl]
  norm_num

/-- C2, counterexample.  For a record with `success_count = 1` and
`failure_count = 4`, the success rate is exactly 20, which is not
strictly below the broken threshold of 20, so `check_flow_health`
reports `degraded`, not `broken` as the claim states. -/
theorem health_20pct_cex :
    (check_flow_health c2Flow).status = "degraded"
    ∧ (check_flow_health c2Flow).status ≠ "broken"
    ∧ (check_flow_health c2Flow).success_rate = 20 := by
  have hstat : (check_flow_health c2Flow).status = "degraded" := by
    simp only [check_flow_health, c2Flow]
    norm_num
  have hrate : (check_flow_health c2Flow).success_rate = 20 := by
    simp only [check_flow_health, c2Flow]
    norm_num [pyRound1_twenty]
  exact ⟨hstat, by rw [hstat]; decide, hrate⟩

/-- C2, amended.  For every record with `success_count = 1`,
`failure_count = 4`, `consecutive_failures` below 2 and no failure
timestamp after the last success, the health report's counters sum to
`total_runs = 5`, its `success_rate` is 20.0, and its status is
`degraded` (20 is not `< 20`, so the broken threshold does not fire;
`totalRuns ≥ 3` with rate `< 50` makes it degraded). -/
theorem health_20pct_degraded (flow : Flow)
    (hs : flow.success_count = 1) (hf : flow.failure_count = 4)
    (hc : flow.consecutive_failures < 2) (hst : staleCondition flow = false) :
    (check_flow_health flow).success_count + (check_flow_health flow).failure_count = 5
    ∧ (check_flow_health flow).success_rate = 20
    ∧ (check_flow_health flow).status = "degraded" := by
  have hc2 : ¬ (2 ≤ flow.consecutive_failures) := by omega
  refine ⟨?_, ?_, ?_⟩
  · simp only [check_flow_health]
    omega
  · simp only [check_flow_health, hs, hf]
    norm_num [pyRound1_twenty]
  · simp only [check_flow_health, hs, hf]
    rw [if_neg hc2]
    norm_num

/-- Witness for `health_20pct_degraded` at the concrete record
`c2Flow`. -/
theorem health_20pct_degraded_witness :
    (check_flow_health c2Flow).success_count + (check_flow_health c2Flow).failure_count = 5
    ∧ (check_flow_health c2Flow).success_rate = 20
    ∧ (check_flow_health c2Flow).status = "degraded" :=
  health_20pct_degraded c2Flow rfl rfl (by decide) (by decide)

/-- C3.  Whenever `consecutive_failures ≥ 2`, the health report has
`needs_relearn = true` and `status = "needs_relearn"`, regardless of
the counters, the success rate, or the timestamp fields: the
consecutive-failure branch is evaluated last and overwrites the
threshold classification. -/
theorem consecutive_failures_force_relearn (flow : Flow)
    (h : 2 ≤ flow.consecutive_failures) :
    (check_flow_health flow).needs_relearn = true
    ∧ (check_flow_health flow).status = "needs_relearn" := by
  constructor <;> simp [check_flow_health, h]

/-- A healthy-looking record (71% success rate, fresh success) with a
consecutive-failure streak of 2. -/
def c3Flow : Flow :=
  { domain := "relearn.example"
  , platform := "shopify"
  , checkout_url_pattern := some "/checkout/"
  , navigation_steps := []
  , form_selectors := ⟨[("email", "[autocomplete=email]")]⟩
  , payment_selectors := ⟨[]⟩
  , success_count := 5
  , failure_count := 2
  , consecutive_failures := 2
  , last_success := some "2026-02-17T12:00:00Z"
  , last_failure := some "2026-02-16T12:00:00Z"
  , last_error := some "selector missing"
  , last_url := none }

/-- Witness for `consecutive_failures_force_relearn` at `c3Flow`. -/
theorem consecutive_failures_force_relearn_witness :
    (check_flow_health c3Flow).needs_relearn = true
    ∧ (check_flow_health c3Flow).status = "needs_relearn" :=
  consecutive_failures_force_relearn c3Flow (by decide)

-- ═══════════════════════════════════════════════════════════════════
-- C5: replay boundary
-- ═══════════════════════════════════════════════════════════════════

/-- A `wait` navigation step. -/
def waitStep : Step :=
  { action := "wait", purpose := "page_load", url_at := none, text := "" }

/-- C5, counterexample.  The sequence `[wait]` contains no boundary
click, so per the claim every step should be returned; the code skips
`wait` steps and returns the empty list. -/
theorem pre_form_steps_cex :
    filter_pre_form_steps [waitStep] = []
    ∧ filter_pre_form_steps [waitStep] ≠ [waitStep] := by
  refine ⟨rfl, by decide⟩

/-- C5, amended.  `_filter_pre_form_steps` returns exactly the
non-`wait` steps strictly before the first step satisfying the
boundary condition (a `click` whose purpose is `continue` or `confirm`
and whose `url_at` contains `/checkout/` followed by at least one
further non-newline character); the boundary step and everything after
it are excluded, `wait` steps are dropped everywhere, and with no
boundary step all non-`wait` steps are returned in order. -/
theorem pre_form_steps_amended (steps : List Step) :
    filter_pre_form_steps steps
      = (steps.takeWhile (fun s => !isStopStep s)).filter (fun s => s.action != "wait") := by
  induction steps with
  | nil => rfl
  | cons s rest ih =>
    cases hw : s.action == "wait"
    · cases hstop : isStopStep s
      · simp only [filter_pre_form_steps, hw, hstop, Bool.false_eq_true, if_false,
          List.takeWhile_cons, Bool.not_false, if_true, List.filter_cons, bne, ih]
      · simp only [filter_pre_form_steps, hw, hstop, Bool.false_eq_true, if_false,
          if_true, List.takeWhile_cons, Bool.not_true, List.filter_nil]
    · have ha : s.action = "wait" := by simpa using hw
      have hstop : isStopStep s = false := by simp [isStopStep, ha]
      simp only [filter_pre_form_steps, hw, if_true, hstop, Bool.not_false,
        List.takeWhile_cons, List.filter_cons, bne, Bool.not_true,
        Bool.false_eq_true, if_false, ih]

-- ═══════════════════════════════════════════════════════════════════
-- C6: load error handling
-- ═══════════════════════════════════════════════════════════════════

/-- C6 (code bug).  A missing file, an I/O error, and malformed JSON
all yield `None` as the claim states — but a file whose contents are
valid JSON that is not an object (e.g. `[]`) raises an uncaught
`AttributeError` from `flow.get('navigation_steps', [])`, and a file
with undecodable bytes raises `UnicodeDecodeError`; neither is caught
by `except (json.JSONDecodeError, IOError)`, so `load` can raise. -/
theorem load_flow_error_handling :
    load_flow FileState.missing = Except.ok none
    ∧ load_flow FileState.ioError = Except.ok none
    ∧ load_flow FileState.invalidJson = Except.ok none
    ∧ load_flow FileState.jsonNonObject = Except.error "AttributeError"
    ∧ load_flow FileState.undecodableBytes = Except.error "UnicodeDecodeError" :=
  ⟨rfl, rfl, rfl, rfl, rfl⟩

-- ═══════════════════════════════════════════════════════════════════
-- C7: recordFailure
-- ═══════════════════════════════════════════════════════════════════

/-- C7.  `record_failure` is a no-op when no record exists; on an
existing record it increments `failure_count` and
`consecutive_failures` by exactly one, stamps `last_failure`, and — for
a non-empty error message — stores `last_error` as the message
truncated to at most 200 characters. -/
theorem record_failure_spec (fl : Flow) (err : Option String) (now : String) :
    record_failure none err now = none
    ∧ record_failure (some fl) err now = some (failUpdate fl err now)
    ∧ (failUpdate fl err now).failure_count = fl.failure_count + 1
    ∧ (failUpdate fl err now).consecutive_failures = fl.consecutive_failures + 1
    ∧ (failUpdate fl err now).last_failure = some now
    ∧ ∀ e, err = some e → e ≠ "" →
        (failUpdate fl err now).last_error = some (pyTruncate e 200)
        ∧ (pyTruncate e 200).length ≤ 200 := by
  refine ⟨rfl, rfl, rfl, rfl, rfl, ?_⟩
  intro e he hne
  subst he
  refine ⟨by simp [failUpdate, hne], ?_⟩
  show (e.data.take 200).length ≤ 200
  rw [List.length_take]
  exact Nat.min_le_left _ _

/-- A record as `record_failure` would find it. -/
def c7Flow : Flow :=
  { domain := "fail.example"
  , platform := "unknown"
  , checkout_url_pattern := none
  , navigation_steps := []
  , form_selectors := ⟨[("email", "#email")]⟩
  , payment_selectors := ⟨[]⟩
  , success_count := 1
  , failure_count := 0
  , consecutive_failures := 0
  , last_success := some "2026-02-17T12:00:00Z"
  , last_failure := none
  , last_error := none
  , last_url := some "https://fail.example/checkout/done" }

/-- Witness for `record_failure_spec` with a concrete record and a
concrete non-empty error message. -/
theorem record_failure_spec_witness :
    (failUpdate c7Flow (some "card declined") "2026-02-18T09:00:00Z").last_error
        = some (pyTruncate "card declined" 200)
    ∧ (pyTruncate "card declined" 200).length ≤ 200 :=
  (record_failure_spec c7Flow (some "card declined") "2026-02-18T09:00:00Z").2.2.2.2.2
    "card declined" rfl (by decide)

-- ═══════════════════════════════════════════════════════════════════
-- C8: domain normalization
-- ═══════════════════════════════════════════════════════════════════

/-- C8, counterexample.  A bare domain string (no `/`) is used verbatim
as the storage key — never lower-cased, never `www.`-stripped — so the
same site addressed as `"WWW.Example.COM"` and as
`"https://WWW.Example.COM/cart"` maps to two different records. -/
theorem domain_key_cex :
    domainKey "WWW.Example.COM" = "WWW.Example.COM"
    ∧ domainKey "WWW.Example.COM" ≠ "example.com"
    ∧ domainKey "https://WWW.Example.COM/cart" = "example.com"
    ∧ domainKey "https://WWW.Example.COM/cart" ≠ domainKey "WWW.Example.COM" := by
  refine ⟨by decide, by decide, by decide, by decide⟩

/-- C8, amended.  Only inputs containing a `/` are parsed as URLs and
normalized (lower-cased hostname, leading `www.` stripped); inputs
without a `/` are used verbatim as the domain key, with no
normalization whatsoever. -/
theorem domain_key_amended :
    (∀ s : String, s.data.contains '/' = false → domainKey s = s)
    ∧ (∀ s : String, s.data.contains '/' = true → domainKey s = domain_from_url s)
    ∧ domain_from_url "https://WWW.Example.COM/cart" = "example.com" := by
  refine ⟨?_, ?_, by decide⟩
  · intro s h
    unfold domainKey
    rw [h, if_neg Bool.false_ne_true]
  · intro s h
    unfold domainKey
    rw [h, if_pos rfl]

/-- Witness for `domain_key_amended` at concrete inputs. -/
theorem domain_key_amended_witness :
    domainKey "shop.example" = "shop.example"
    ∧ domainKey "https://shop.example/cart" = domain_from_url "https://shop.example/cart" :=
  ⟨domain_key_amended.1 "shop.example" (by decide),
   domain_key_amended.2.1 "https://shop.example/cart" (by decide)⟩

-- ═══════════════════════════════════════════════════════════════════
-- C9: fill verification tolerance
-- ═══════════════════════════════════════════════════════════════════

theorem filter_dropWhile_excl {α : Type} (p q : α → Bool)
    (h : ∀ a, q a = true → p a = false) (l : List α) :
    (l.dropWhile q).filter p = l.filter p := by
  induction l with
  | nil => rfl
  | cons c l ih =>
    cases hq : q c
    · rw [List.dropWhile_cons, hq]
      simp only [Bool.false_eq_true, if_false]
    · rw [List.dropWhile_cons, hq]
      simp only [if_true]
      rw [ih, List.filter_cons, h c hq]
      simp only [Bool.false_eq_true, if_false]

/-- Stripping whitespace/hyphens/parentheses from a trimmed string is
the same as stripping them from the raw string: the trim only removes
whitespace, which the strip removes anyway. -/
theorem stripPunct_jsTrim (s : String) : stripPunct (jsTrim s) = stripPunct s := by
  have hexcl : ∀ c : Char, jsWhitespace c = true →
      (!(jsWhitespace c || c == '-' || c == '(' || c == ')')) = false := by
    intro c hc
    simp [hc]
  show String.mk (((((s.data.dropWhile jsWhitespace).reverse).dropWhile jsWhitespace).reverse).filter
        (fun c => !(jsWhitespace c || c == '-' || c == '(' || c == ')')))
      = String.mk (s.data.filter (fun c => !(jsWhitespace c || c == '-' || c == '(' || c == ')')))
  congr 1
  rw [List.filter_reverse]
  rw [filter_dropWhile_excl _ jsWhitespace hexcl]
  rw [List.filter_reverse, List.reverse_reverse]
  rw [filter_dropWhile_excl _ jsWhitespace hexcl]

/-- C9.  The read-back verification accepts whenever the trimmed
read-back equals the trimmed expected value, or whenever the two agree
after removing all whitespace, hyphen and parenthesis characters; in
particular writing `+1 (555) 123-4567` and reading back `+15551234567`
verifies, and writing `Jane Doe` but reading back `Jane` does not. -/
theorem verify_field_tolerance :
    (∀ readBack expected : String,
        jsTrim readBack = jsTrim expected → verifyField readBack expected = true)
    ∧ (∀ readBack expected : String,
        stripPunct readBack = stripPunct expected → verifyField readBack expected = true)
    ∧ verifyField "+15551234567" "+1 (555) 123-4567" = true
    ∧ verifyField "Jane" "Jane Doe" = false := by
  refine ⟨?_, ?_, by decide, by decide⟩
  · intro a e h
    simp [verifyField, h]
  · intro a e h
    simp [verifyField, stripPunct_jsTrim, h]

/-- Witness for `verify_field_tolerance`: a trimmed-equal pair and a
punctuation-stripped-equal pair, both verified. -/
theorem verify_field_tolerance_witness :
    verifyField "  Jane Doe " "Jane Doe" = true
    ∧ verifyField "(5-5) 5" "555" = true :=
  ⟨verify_field_tolerance.1 "  Jane Doe " "Jane Doe" (by decide),
   verify_field_tolerance.2.1 "(5-5) 5" "555" (by decide)⟩

-- ═══════════════════════════════════════════════════════════════════
-- C10: save() erases failure timestamps
-- ═══════════════════════════════════════════════════════════════════

/-- C10.  Every successful `save_flow` writes a record carrying no
`last_failure` and no `last_error` key; consequently the health
monitor's timestamp condition (last failure after last success) is
false on the freshly saved record, and so is its overall
`needs_relearn` output (the streak is also reset to 0). -/
theorem save_clears_failure_fields (st : Option Flow) (a : SaveArgs) :
    (save_flow st a).last_failure = none
    ∧ (save_flow st a).last_error = none
    ∧ staleCondition (save_flow st a) = false
    ∧ (check_flow_health (save_flow st a)).needs_relearn = false := by
  refine ⟨rfl, rfl, rfl, ?_⟩
  have h2 : ¬ (2 ≤ (save_flow st a).consecutive_failures) := by
    show ¬ (2 ≤ 0)
    omega
  simp only [check_flow_health, if_neg h2]
  rfl

end Swiftbuy
